import Mathlib

/-!
# Verification of the rerun log codec and `DataCell` against their specification

Shallow embedding of:

* `crates/re_log_encoding/src/decoder.rs` — the `.rrd` stream decoder
  (`Decoder::new`, `Decoder::next`, `warn_on_version_mismatch`), together
  with a model of the encoder described by the spec (the encoder source is
  not part of the sample).
* `crates/re_log_types/src/data_cell.rs` — the `DataCell` columnar cell
  (builders, `num_instances`, `is_empty`, `is_dense`, `is_sorted_and_unique`,
  `as_arrow_monolist`).

Machine integers are modelled as `Nat`/`Int` with explicit `% 2^w` where the
source performs a narrowing cast.  External crates (`rmp_serde` message
serialization, `zstd` compression, `arrow2_convert` component serialization,
`re_build_info` versions) are either parametrized with their contractual
properties as hypotheses or modelled from the spec, as noted at each
definition.
-/

namespace Rerun

/-! ## Little-endian byte encoding (`u64::from_le_bytes` / `to_le_bytes`) -/

/-- The `w` little-endian base-256 digits of `n` (the low `w` bytes of `n`),
as produced by `(n as u64).to_le_bytes()` when `w = 8`. -/
def leBytes : Nat → Nat → List Nat
  | 0, _ => []
  | w + 1, n => n % 256 :: leBytes w (n / 256)

/-- Value of a little-endian byte list, as computed by `u64::from_le_bytes`
on an 8-byte buffer. -/
def leU64 : List Nat → Nat
  | [] => 0
  | b :: rest => b + 256 * leU64 rest

/-! ## Error types of the decoder (`DecodeError` in `decoder.rs`) -/

/-- A `std::io::Error`: the decoder only distinguishes errors by provenance,
so we keep an `UnexpectedEof` (what `read_exact` returns on a short read)
and an opaque catch-all for every other I/O or decompression failure. -/
inductive IoError where
  | unexpectedEof
  | other (code : Nat)
deriving DecidableEq, Repr

/-- An `rmp_serde::decode::Error` (opaque to the decoder). -/
structure MsgPackError where
  message : String
deriving DecidableEq, Repr

/-- The `DecodeError` from `decoder.rs` (native variants). -/
inductive DecodeError where
  /-- The `DecodeError::NotAnRrd`: "Not an .rrd file". -/
  | notAnRrd
  /-- The `DecodeError::Read`: failure reading the raw (uncompressed) header bytes. -/
  | read (e : IoError)
  /-- The `DecodeError::Zstd`: failure from the decompressing reader. -/
  | zstd (e : IoError)
  /-- The `DecodeError::MsgPack`: message deserialization failure. -/
  | msgPack (e : MsgPackError)
deriving DecidableEq, Repr

/-! ## Reader model

The zstd decompressing reader is a stateful byte source whose `read_exact`
either fills the requested buffer exactly or fails with an I/O /
decompression error.  We model it as a state type `σ` with a `readExact`
step returning the bytes read and the successor state. -/

structure Reader (σ : Type) where
  readExact : σ → Nat → Except IoError (List Nat × σ)

/-- The well-behaved byte-list reader: `readExact n` succeeds iff at least
`n` bytes remain, handing out exactly the next `n` bytes; a short read
fails with `UnexpectedEof`, as `std::io::Read::read_exact` does. -/
def listReadExact (s : List Nat) (n : Nat) : Except IoError (List Nat × List Nat) :=
  if n ≤ s.length then .ok (s.take n, s.drop n) else .error .unexpectedEof

def listReader : Reader (List Nat) := ⟨listReadExact⟩

/-! ## `Decoder::next` (`decoder.rs` lines 85–107)

One pull of the streaming decoder:

```rust
let mut len = [0_u8; 8];
self.zdecoder.read_exact(&mut len).ok()?;
let len = u64::from_le_bytes(len) as usize;
self.buffer.resize(len, 0);
if let Err(err) = self.zdecoder.read_exact(&mut self.buffer) {
    return Some(Err(DecodeError::Zstd(err)));
}
match rmp_serde::from_read(&mut self.buffer.as_slice()) {
    Ok(msg) => Some(Ok(msg)),
    Err(err) => Some(Err(err.into())),
}
```

`Msg` is the external `LogMsg` type and `deser` the external
`rmp_serde::from_read`, both opaque to the decoder.  The reusable `buffer`
is a performance detail: its observable content is exactly the `len` bytes
read. -/

def decoderNext {σ Msg : Type} (R : Reader σ) (deser : List Nat → Except MsgPackError Msg)
    (s : σ) : Option (Except DecodeError Msg × σ) :=
  match R.readExact s 8 with
  | .error _ => none
  | .ok (lenBytes, s1) =>
    let len := leU64 lenBytes
    match R.readExact s1 len with
    | .error err => some (.error (.zstd err), s1)
    | .ok (payload, s2) =>
      match deser payload with
      | .ok msg => some (.ok msg, s2)
      | .error err => some (.error (.msgPack err), s2)

/-! ## Version check (`warn_on_version_mismatch`, `decoder.rs` lines 7–22)

`re_build_info::CrateVersion` is not part of the source sample. -/

/-- Modelled from the spec: `re_build_info::CrateVersion`, a semantic
version triple (`CrateVersion::new(major, minor, patch)`). -/
structure CrateVersion where
  major : Nat
  minor : Nat
  patch : Nat
deriving DecidableEq, Repr

/-- Modelled from the spec: `CrateVersion::from_bytes` decodes the 4-byte
version field of the stream header as a semantic version triple. -/
def CrateVersion.fromBytes (bytes : List Nat) : CrateVersion :=
  ⟨bytes.getD 0 0, bytes.getD 1 0, bytes.getD 2 0⟩

/-- The version the decoder compares against, per `warn_on_version_mismatch`:
the all-zero field (used by all `.rrd` files up until the post-0.2.0 release)
is substituted with `CrateVersion::new(0, 2, 0)` instead of being parsed
as a literal zero version. -/
def effectiveEncodedVersion (bytes : List Nat) : CrateVersion :=
  if bytes = [0, 0, 0, 0] then ⟨0, 2, 0⟩ else CrateVersion.fromBytes bytes

/-- The warning that `warn_on_version_mismatch` logs on incompatibility,
naming both the encoded (stream) version and the local reader version. -/
structure VersionWarning where
  encoded : CrateVersion
  localVersion : CrateVersion
deriving DecidableEq, Repr

/-- The `warn_on_version_mismatch(encoded_version)`: substitute the legacy
sentinel, compare with the local version via the external compatibility
predicate `compat` (`CrateVersion::is_compatible_with`), and emit a warning
naming both versions when incompatible.  It returns no error: the emitted
warning (modelled as the `Option` result, standing for the log side
effect) is its only output. -/
def warnOnVersionMismatch (compat : CrateVersion → CrateVersion → Bool)
    (localVersion : CrateVersion) (encodedVersionBytes : List Nat) : Option VersionWarning :=
  let encoded := effectiveEncodedVersion encodedVersionBytes
  if compat encoded localVersion then none else some ⟨encoded, localVersion⟩

/-! ## `Decoder::new` (`decoder.rs` lines 62–78)

```rust
let mut header = [0_u8; 4];
read.read_exact(&mut header).map_err(DecodeError::Read)?;
if &header != b"RRF0" { return Err(DecodeError::NotAnRrd); }
read.read_exact(&mut header).map_err(DecodeError::Read)?;
warn_on_version_mismatch(header);
let zdecoder = zstd::stream::read::Decoder::new(read).map_err(DecodeError::Zstd)?;
```

The input is the raw byte stream; `zstdNew` stands for handing the rest of
the stream to the external zstd decompressor, producing the decompressed
body (or an initialization/decompression failure).  The emitted version
warning is returned alongside so that it is observable. -/

/-- The 4 magic bytes `b"RRF0"`. -/
def rrf0Magic : List Nat := [0x52, 0x52, 0x46, 0x30]

def Decoder.new (compat : CrateVersion → CrateVersion → Bool) (localVersion : CrateVersion)
    (zstdNew : List Nat → Except IoError (List Nat)) (read : List Nat) :
    Except DecodeError (Option VersionWarning × List Nat) :=
  if 4 ≤ read.length then
    let header := read.take 4
    let rest := read.drop 4
    if header ≠ rrf0Magic then .error .notAnRrd
    else if 4 ≤ rest.length then
      let warning := warnOnVersionMismatch compat localVersion (rest.take 4)
      match zstdNew (rest.drop 4) with
      | .ok body => .ok (warning, body)
      | .error e => .error (.zstd e)
    else .error (.read .unexpectedEof)
  else .error (.read .unexpectedEof)

/-! ## Draining the decoder

`Decoder` implements `Iterator`; `collect::<Result<Vec<_>, _>>()` pulls
until `None`, stopping at the first `Err`.  Over the byte-list reader each
successful pull consumes at least the 8 length bytes, which bounds the
recursion. -/

/-- Pull messages until the iterator is exhausted, failing at the first
error, exactly as `collect::<Result<Vec<LogMsg>, DecodeError>>()` does in
`test_encode_decode`. -/
def drainDecoder {Msg : Type} (deser : List Nat → Except MsgPackError Msg) (s : List Nat) :
    Except DecodeError (List Msg) :=
  match h : decoderNext listReader deser s with
  | none => .ok []
  | some (.error e, _) => .error e
  | some (.ok m, s') =>
    match drainDecoder deser s' with
    | .ok rest => .ok (m :: rest)
    | .error e => .error e
termination_by s.length
decreasing_by
  unfold decoderNext listReader listReadExact at h
  by_cases h8 : 8 ≤ s.length
  · simp only [h8, if_pos, List.length_drop] at h
    by_cases hlen : leU64 (s.take 8) ≤ s.length - 8
    · simp only [hlen, if_pos] at h
      cases hd : deser (List.take (leU64 (s.take 8)) (s.drop 8)) with
      | ok msg =>
        simp only [hd] at h
        cases h
        simp only [List.length_drop]
        omega
      | error e => simp [hd] at h
    · simp [hlen] at h
  · simp [h8] at h

/-- Full decode of a byte stream: construct the decoder (header checks,
decompression), then drain it. -/
def decodeAll {Msg : Type} (compat : CrateVersion → CrateVersion → Bool)
    (localVersion : CrateVersion) (zstdNew : List Nat → Except IoError (List Nat))
    (deser : List Nat → Except MsgPackError Msg) (input : List Nat) :
    Except DecodeError (List Msg) :=
  match Decoder.new compat localVersion zstdNew input with
  | .error e => .error e
  | .ok (_, body) => drainDecoder deser body

/-! ## The encoder

`encoder.rs` of `re_log_encoding` is not part of the source sample; only
its caller (`test_encode_decode`) is. -/

/-- Modelled from the spec: the encoder of `re_log_encoding/src/encoder.rs`.
"Write the 4-byte magic, write the current local format version as 4 bytes,
open a compressing writer over the output sink, then for each input
message: serialize it to bytes, write its length as 8 little-endian bytes,
write the bytes" — the compressed body is the concatenation of the
length-prefixed frames, run through the compressor `comp`.  `ser` is the
external `rmp_serde` message serializer. -/
def encode {Msg : Type} (ser : Msg → List Nat) (comp : List Nat → List Nat)
    (localVersionBytes : List Nat) (msgs : List Msg) : List Nat :=
  rrf0Magic ++ localVersionBytes ++
    comp (msgs.map (fun m => leBytes 8 (ser m).length ++ ser m)).flatten

/-! ## The columnar cell (`re_log_types/src/data_cell.rs`)

The backing store of a `DataCell` is an erased `arrow2` array.  The cell
code only ever inspects: the element datatype, the array length, the
validity (null) bitmap, and — for the ten supported primitive kinds — the
raw value buffer.  We model the erased array as a closed tagged variant
over those kinds plus a catch-all for every other `arrow2` datatype.
Signed integer kinds carry `Int` values, unsigned kinds `Nat` values, and
the float kinds carry an ordered value type (`Rat`) standing for the
non-exceptional IEEE values; the cell code only compares buffer elements
with `<`, never computes with them. -/

/-- The `arrow2::datatypes::DataType` of an array, restricted to what the
cell code distinguishes: the ten primitive kinds it dispatches on, and an
opaque description of every other datatype. -/
inductive DataType where
  | int8 | int16 | int32 | int64
  | uint8 | uint16 | uint32 | uint64
  | float32 | float64
  | other (descr : String)
deriving DecidableEq, Repr

/-- The ten element kinds `is_sorted_and_unique` supports. -/
def DataType.isSupportedPrimitive : DataType → Bool
  | .other _ => false
  | _ => true

/-- An `arrow2::array::PrimitiveArray<T>`: raw value buffer plus optional
validity bitmap (`true` = valid, `false` = null slot). -/
structure PrimData (α : Type) where
  values : List α
  validity : Option (List Bool)
deriving DecidableEq, Repr

/-- An erased `Box<dyn arrow2::array::Array>`, as observed by the cell
code.  The `other` case records the datatype description, the array
length and the validity bitmap (all the cell code reads from such an
array). -/
inductive ArrowArray where
  | int8 (d : PrimData Int)
  | int16 (d : PrimData Int)
  | int32 (d : PrimData Int)
  | int64 (d : PrimData Int)
  | uint8 (d : PrimData Nat)
  | uint16 (d : PrimData Nat)
  | uint32 (d : PrimData Nat)
  | uint64 (d : PrimData Nat)
  | float32 (d : PrimData Rat)
  | float64 (d : PrimData Rat)
  | other (descr : String) (len : Nat) (validity : Option (List Bool))
deriving DecidableEq, Repr

/-- The `arrow2::array::Array::len`. -/
def ArrowArray.len : ArrowArray → Nat
  | .int8 d | .int16 d | .int32 d | .int64 d => d.values.length
  | .uint8 d | .uint16 d | .uint32 d | .uint64 d => d.values.length
  | .float32 d | .float64 d => d.values.length
  | .other _ n _ => n

/-- The `arrow2::array::Array::validity`. -/
def ArrowArray.validity : ArrowArray → Option (List Bool)
  | .int8 d | .int16 d | .int32 d | .int64 d => d.validity
  | .uint8 d | .uint16 d | .uint32 d | .uint64 d => d.validity
  | .float32 d | .float64 d => d.validity
  | .other _ _ v => v

/-- The `arrow2::array::Array::data_type`. -/
def ArrowArray.dataType : ArrowArray → DataType
  | .int8 _ => .int8
  | .int16 _ => .int16
  | .int32 _ => .int32
  | .int64 _ => .int64
  | .uint8 _ => .uint8
  | .uint16 _ => .uint16
  | .uint32 _ => .uint32
  | .uint64 _ => .uint64
  | .float32 _ => .float32
  | .float64 _ => .float64
  | .other s _ _ => .other s

/-- Number of null slots of the array (`validity.unset_bits()`, `0` when
there is no validity bitmap). -/
def ArrowArray.nullCount (a : ArrowArray) : Nat :=
  match a.validity with
  | none => 0
  | some v => v.count false

/-- The `arrow2` structural invariant that a validity bitmap, when present,
has one bit per array element (enforced by every `arrow2` array
constructor). -/
def ArrowArray.validityWf (a : ArrowArray) : Bool :=
  match a.validity with
  | none => true
  | some v => v.length == a.len

/-- Zero-copy slice of an array (`arrow2::array::Array::sliced`). -/
def PrimData.slice {α : Type} (d : PrimData α) (start len : Nat) : PrimData α :=
  ⟨(d.values.drop start).take len, d.validity.map fun v => (v.drop start).take len⟩

def ArrowArray.slice : ArrowArray → Nat → Nat → ArrowArray
  | .int8 d, s, l => .int8 (d.slice s l)
  | .int16 d, s, l => .int16 (d.slice s l)
  | .int32 d, s, l => .int32 (d.slice s l)
  | .int64 d, s, l => .int64 (d.slice s l)
  | .uint8 d, s, l => .uint8 (d.slice s l)
  | .uint16 d, s, l => .uint16 (d.slice s l)
  | .uint32 d, s, l => .uint32 (d.slice s l)
  | .uint64 d, s, l => .uint64 (d.slice s l)
  | .float32 d, s, l => .float32 (d.slice s l)
  | .float64 d, s, l => .float64 (d.slice s l)
  | .other de n v, s, l => .other de (min (s + l) n - s) (v.map fun bl => (bl.drop s).take l)

/-- The `DataCellError` from `data_cell.rs` (the `Unreachable` variant only
exists for a `TryFrom` blanket impl and is never constructed here). -/
inductive DataCellError where
  /-- The `DataCellError::UnsupportedDatatype`, naming the offending datatype. -/
  | unsupportedDatatype (dt : DataType)
  /-- The `DataCellError::Arrow`: an `arrow2` (de)serialization failure. -/
  | arrow (msg : String)
  | unreachable
deriving DecidableEq, Repr

/-- The `DataCell`: a component name tag plus the erased backing array. -/
structure DataCell where
  name : String
  values : ArrowArray
deriving DecidableEq, Repr

/-- The `DataCell::try_from_arrow`: `Ok(Self { name, values })` — it never
rejects its input today (schema validation is a TODO in the source). -/
def DataCell.try_from_arrow (name : String) (values : ArrowArray) :
    Except DataCellError DataCell :=
  .ok ⟨name, values⟩

/-- The `DataCell::from_arrow` = `try_from_arrow(name, values).unwrap()`,
which cannot panic since `try_from_arrow` is infallible. -/
def DataCell.from_arrow (name : String) (values : ArrowArray) : DataCell :=
  ⟨name, values⟩

/-- The `DataCell::component_name`. -/
def DataCell.component_name (c : DataCell) : String := c.name

/-- The `DataCell::datatype` (`self.values.data_type()`). -/
def DataCell.datatype (c : DataCell) : DataType := c.values.dataType

/-- The `DataCell::num_instances`: `self.values.len() as _` with return type
`u32` — the `as` cast truncates the `usize` length modulo `2^32`. -/
def DataCell.num_instances (c : DataCell) : Nat := c.values.len % 2 ^ 32

/-- The `DataCell::is_empty` (`self.values.is_empty()`, i.e. `len() == 0` on
the untruncated `usize` length). -/
def DataCell.is_empty (c : DataCell) : Bool := c.values.len == 0

/-- The `DataCell::is_dense`: if a validity bitmap is present, dense iff it
has zero unset bits; a missing bitmap means no nulls. -/
def DataCell.is_dense (c : DataCell) : Bool :=
  match c.values.validity with
  | some validity => validity.count false == 0
  | none => true

/-- The `is_sorted_and_unique_primitive::<T>`: `values.windows(2).all(|v| v[0] < v[1])`,
expressed as the same adjacent-pairs scan over the raw buffer. -/
def isSortedAndUniquePrimitive {α : Type} [LT α]
    [DecidableRel ((· < ·) : α → α → Prop)] (values : List α) : Bool :=
  (values.zip values.tail).all fun p => decide (p.1 < p.2)

/-- The `DataCell::is_sorted_and_unique`: dispatch on the element datatype;
scan the raw buffer for the ten supported primitive kinds, error on any
other datatype, naming it. -/
def DataCell.is_sorted_and_unique (c : DataCell) : Except DataCellError Bool :=
  match c.values with
  | .int8 d | .int16 d | .int32 d | .int64 d => .ok (isSortedAndUniquePrimitive d.values)
  | .uint8 d | .uint16 d | .uint32 d | .uint64 d => .ok (isSortedAndUniquePrimitive d.values)
  | .float32 d | .float64 d => .ok (isSortedAndUniquePrimitive d.values)
  | .other descr _ _ => .error (.unsupportedDatatype (.other descr))

/-- Modelled from the spec: the external component capability interface —
"every component type exposes a stable name, a columnar datatype
descriptor, and conversion functions to/from the columnar representation"
(the conversions are provided by the external `arrow2_convert` crate and
"must never fail for any value of a correctly-implemented component
type"). -/
structure SerializableComponent (α : Type) where
  name : String
  /-- The `TryIntoArrow::try_into_arrow` over an iterable of values. -/
  tryIntoArrow : List α → ArrowArray
  /-- The `TryIntoArrow::try_into_arrow` over an iterable of optional values. -/
  tryIntoArrowSparse : List (Option α) → ArrowArray

/-- The `DataCell::try_from_native`. -/
def DataCell.try_from_native {α : Type} (C : SerializableComponent α) (values : List α) :
    Except DataCellError DataCell :=
  .ok (DataCell.from_arrow C.name (C.tryIntoArrow values))

/-- The `DataCell::from_native` (`try_from_native(values).unwrap()`). -/
def DataCell.from_native {α : Type} (C : SerializableComponent α) (values : List α) : DataCell :=
  DataCell.from_arrow C.name (C.tryIntoArrow values)

/-- The `DataCell::try_from_native_sparse`. -/
def DataCell.try_from_native_sparse {α : Type} (C : SerializableComponent α)
    (values : List (Option α)) : Except DataCellError DataCell :=
  .ok (DataCell.from_arrow C.name (C.tryIntoArrowSparse values))

/-- The `DataCell::from_native_sparse` (`try_from_native_sparse(values).unwrap()`). -/
def DataCell.from_native_sparse {α : Type} (C : SerializableComponent α)
    (values : List (Option α)) : DataCell :=
  DataCell.from_arrow C.name (C.tryIntoArrowSparse values)

/-- Modelled from the spec: a representative builtin numeric component
whose columnar representation is an `Int64` primitive array.  "Absent
elements become null slots": the sparse conversion writes a default value
into the raw buffer at each absent slot and records absence in the
validity bitmap (`arrow2` materializes the bitmap lazily, on the first
null). -/
def int64Component : SerializableComponent Int where
  name := "rerun.testing.int64"
  tryIntoArrow := fun values => .int64 ⟨values, none⟩
  tryIntoArrowSparse := fun values =>
    .int64 ⟨values.map (fun v => v.getD 0),
      if values.any (fun v => v.isNone) then some (values.map fun v => v.isSome) else none⟩

/-- The `DataCell::as_arrow`: the backing array by shared handle (shallow). -/
def DataCell.as_arrow (c : DataCell) : ArrowArray := c.values

/-- An `arrow2::array::ListArray<i32>`: offsets buffer, inner values
array, validity bitmap. -/
structure ListArrayI32 where
  offsets : List Nat
  values : ArrowArray
  validity : Option (List Bool)
deriving DecidableEq, Repr

/-- Outer length of a list array (`offsets.len() - 1`). -/
def ListArrayI32.outerLen (la : ListArrayI32) : Nat := la.offsets.length - 1

/-- The `i`-th outer element of a list array: the slice of the inner
values delimited by consecutive offsets. -/
def ListArrayI32.get (la : ListArrayI32) (i : Nat) : ArrowArray :=
  la.values.slice (la.offsets.getD i 0) (la.offsets.getD (i + 1) 0 - la.offsets.getD i 0)

/-- The `DataCell::as_arrow_monolist`: wrap the whole backing array as the
single row of a `ListArray<i32>`.  `Offsets::<i32>::try_from_lengths` over
the one-element length iterator `once(self.num_instances() as usize)`
yields the offsets buffer `[0, num_instances]` when that length fits an
`i32`, and an `Overflow` error when it exceeds `i32::MAX` (`2^31 - 1`);
the source `.unwrap()`s that result, so the overflow case panics —
modelled as `none`.  The validity of the produced list array is `None`. -/
def DataCell.as_arrow_monolist (c : DataCell) : Option ListArrayI32 :=
  if c.num_instances < 2 ^ 31 then
    some { offsets := [0, c.num_instances]
           values := c.as_arrow
           validity := none }
  else none

/-- Claim-side formalization of "every adjacent pair of the raw value
buffer satisfies strict less-than (`v[i] < v[i+1]`)": the raw buffer is a
`<`-chain, stated with `List.Chain'` independently of the scan performed
by the source.  Unused for unsupported element kinds. -/
def ArrowArray.rawAdjacentPairsStrictlyIncreasing : ArrowArray → Prop
  | .int8 d | .int16 d | .int32 d | .int64 d => List.Chain' (· < ·) d.values
  | .uint8 d | .uint16 d | .uint32 d | .uint64 d => List.Chain' (· < ·) d.values
  | .float32 d | .float64 d => List.Chain' (· < ·) d.values
  | .other _ _ _ => True

/-- A `UInt8` array of `2^32` elements: the smallest array length at which
`num_instances`'s `as u32` cast truncates. -/
def hugeArray : ArrowArray := .uint8 ⟨List.replicate (2 ^ 32) 0, none⟩

/-- A cell backed by [hugeArray]. -/
def hugeCell : DataCell := DataCell.from_arrow "rerun.testing.uint8" hugeArray

/-- A `UInt8` array of `2^31` elements: the smallest array length at which
`Offsets::<i32>::try_from_lengths` overflows (its length exceeds
`i32::MAX`) and the `.unwrap()` in `as_arrow_monolist` panics. -/
def overflowArray : ArrowArray := .uint8 ⟨List.replicate (2 ^ 31) 0, none⟩

/-- A cell backed by [overflowArray]. -/
def overflowCell : DataCell := DataCell.from_arrow "rerun.testing.uint8" overflowArray

/-- A small concrete `Int64` array used by witnesses. -/
def sampleInt64Array : ArrowArray := .int64 ⟨[1, 2, 3], none⟩

/-- A small concrete cell used by witnesses. -/
def sampleInt64Cell : DataCell := DataCell.from_arrow "rerun.testing.int64" sampleInt64Array

/-! ## Concrete instantiations used by witnesses -/

/-- A tiny concrete message serializer for witnesses: a Boolean message
encoded as one byte. -/
def boolSer (m : Bool) : List Nat := [cond m 1 0]

/-- The matching deserializer. -/
def boolDeser (bytes : List Nat) : Except MsgPackError Bool :=
  match bytes with
  | [1] => .ok true
  | [0] => .ok false
  | _ => .error ⟨"bad bool message"⟩

/-- A reader whose every read fails with a non-EOF I/O error (e.g. a
corrupt zstd frame). -/
def failingReader : Reader Unit := ⟨fun _ _ => .error (.other 5)⟩

/-- A sample compatibility predicate: same major version. -/
def sampleCompat (encoded localVersion : CrateVersion) : Bool :=
  encoded.major == localVersion.major

/-- A sample local reader version. -/
def sampleLocalVersion : CrateVersion := ⟨0, 5, 0⟩

/-! # Theorems -/

/-! ## Generic helper lemmas -/

theorem leBytes_length (w n : Nat) : (leBytes w n).length = w := by
  induction w generalizing n with
  | zero => rfl
  | succ w ih => simp [leBytes, ih]

theorem leU64_leBytes (w n : Nat) : leU64 (leBytes w n) = n % 256 ^ w := by
  induction w generalizing n with
  | zero => simp [leBytes, leU64, Nat.mod_one]
  | succ w ih =>
    simp only [leBytes, leU64, ih]
    rw [pow_succ', Nat.mod_mul]

theorem leU64_leBytes_of_lt {n : Nat} (h : n < 2 ^ 64) : leU64 (leBytes 8 n) = n := by
  have h256 : (256 : Nat) ^ 8 = 2 ^ 64 := by norm_num
  rw [leU64_leBytes, h256, Nat.mod_eq_of_lt h]

theorem isSortedAndUniquePrimitive_iff_chain {α : Type} [LT α]
    [DecidableRel ((· < ·) : α → α → Prop)] (l : List α) :
    isSortedAndUniquePrimitive l = true ↔ List.Chain' (· < ·) l := by
  induction l with
  | nil => simp [isSortedAndUniquePrimitive]
  | cons a t ih =>
    cases t with
    | nil => simp [isSortedAndUniquePrimitive]
    | cons b t' =>
      simp only [isSortedAndUniquePrimitive, List.tail_cons] at ih ⊢
      simp only [List.zip_cons_cons, List.all_cons, Bool.and_eq_true, decide_eq_true_eq,
        List.chain'_cons, ih]

/-- A full-width slice of well-formed primitive data is the data itself. -/
theorem PrimData.slice_full {α : Type} (d : PrimData α)
    (hd : (match d.validity with
           | none => true
           | some v => v.length == d.values.length) = true) :
    PrimData.slice d 0 d.values.length = d := by
  obtain ⟨vals, validity⟩ := d
  cases validity with
  | none => simp [PrimData.slice]
  | some v =>
    simp only [beq_iff_eq] at hd
    simp [PrimData.slice, List.take_of_length_le (le_of_eq hd)]

/-- A full-width slice of a well-formed array is the array itself. -/
theorem ArrowArray.slice_zero_len (a : ArrowArray) (hwf : a.validityWf = true) :
    a.slice 0 a.len = a := by
  cases a with
  | int8 d => exact congrArg ArrowArray.int8 (d.slice_full hwf)
  | int16 d => exact congrArg ArrowArray.int16 (d.slice_full hwf)
  | int32 d => exact congrArg ArrowArray.int32 (d.slice_full hwf)
  | int64 d => exact congrArg ArrowArray.int64 (d.slice_full hwf)
  | uint8 d => exact congrArg ArrowArray.uint8 (d.slice_full hwf)
  | uint16 d => exact congrArg ArrowArray.uint16 (d.slice_full hwf)
  | uint32 d => exact congrArg ArrowArray.uint32 (d.slice_full hwf)
  | uint64 d => exact congrArg ArrowArray.uint64 (d.slice_full hwf)
  | float32 d => exact congrArg ArrowArray.float32 (d.slice_full hwf)
  | float64 d => exact congrArg ArrowArray.float64 (d.slice_full hwf)
  | other de n v =>
    cases v with
    | none => simp [ArrowArray.slice, ArrowArray.len]
    | some bl =>
      simp only [ArrowArray.validityWf, ArrowArray.validity, ArrowArray.len, beq_iff_eq] at hwf
      simp [ArrowArray.slice, ArrowArray.len, List.take_of_length_le (le_of_eq hwf)]

theorem DataCell.num_instances_def (c : DataCell) :
    c.num_instances = c.values.len % 2 ^ 32 := rfl

theorem DataCell.from_arrow_values (name : String) (arr : ArrowArray) :
    (DataCell.from_arrow name arr).values = arr := rfl

theorem hugeArray_len : hugeArray.len = 2 ^ 32 := by
  simp only [hugeArray, ArrowArray.len, List.length_replicate]

theorem hugeCell_values_len : hugeCell.values.len = 2 ^ 32 := by
  simp only [hugeCell, DataCell.from_arrow]
  exact hugeArray_len

theorem hugeCell_num_instances : hugeCell.num_instances = 0 := by
  rw [DataCell.num_instances_def, hugeCell_values_len, Nat.mod_self]

theorem overflowArray_len : overflowArray.len = 2 ^ 31 := by
  simp only [overflowArray, ArrowArray.len, List.length_replicate]

theorem overflowCell_values_len : overflowCell.values.len = 2 ^ 31 := by
  simp only [overflowCell, DataCell.from_arrow]
  exact overflowArray_len

theorem overflowCell_num_instances : overflowCell.num_instances = 2 ^ 31 := by
  rw [DataCell.num_instances_def, overflowCell_values_len]
  exact Nat.mod_eq_of_lt (by norm_num)

theorem DataCell.as_arrow_monolist_def (c : DataCell) :
    c.as_arrow_monolist
      = if c.num_instances < 2 ^ 31 then
          some ⟨[0, c.num_instances], c.values, none⟩
        else none := rfl

/-! ## C9 — `try_from_arrow` never rejects; name and array are kept -/

/-- Claim C9: For every component name and every pre-built type-erased array,
`try_from_arrow(name, array)` returns `Ok` (it never rejects its input
today), and the resulting cell has `component_name()` equal to the given
name and is backed by exactly the given array. -/
theorem try_from_arrow_never_fails (name : String) (values : ArrowArray) :
    ∃ c, DataCell.try_from_arrow name values = .ok c
      ∧ c.component_name = name ∧ c.values = values :=
  ⟨⟨name, values⟩, rfl, rfl, rfl⟩

/-! ## C2 — `is_sorted_and_unique` -/

/-- Claim C2: For every dense cell whose element datatype is one of the ten
supported primitive numeric kinds, `is_sorted_and_unique` returns
`Ok(true)` iff every adjacent pair of the raw value buffer satisfies
strict less-than (hence `Ok(true)` on empty and singleton buffers, and
`Ok(false)` whenever some adjacent pair is equal or decreasing); for
every cell of any other element datatype it returns an
unsupported-datatype error naming the offending datatype. -/
theorem is_sorted_and_unique_spec (c : DataCell) (hdense : c.is_dense = true) :
    (c.datatype.isSupportedPrimitive = true →
      ∃ b, c.is_sorted_and_unique = .ok b
        ∧ (b = true ↔ c.values.rawAdjacentPairsStrictlyIncreasing))
    ∧ (c.datatype.isSupportedPrimitive = false →
      c.is_sorted_and_unique = .error (.unsupportedDatatype c.datatype)) := by
  obtain ⟨name, values⟩ := c
  cases values <;>
    simp [DataCell.is_sorted_and_unique, DataCell.datatype, ArrowArray.dataType,
      DataType.isSupportedPrimitive, ArrowArray.rawAdjacentPairsStrictlyIncreasing,
      isSortedAndUniquePrimitive_iff_chain]

/-- Witness for C2 at the dense `Int64` cell `[1, 2, 3]`. -/
theorem is_sorted_and_unique_spec_witness :
    sampleInt64Cell.is_dense = true
    ∧ ((sampleInt64Cell.datatype.isSupportedPrimitive = true →
        ∃ b, sampleInt64Cell.is_sorted_and_unique = .ok b
          ∧ (b = true ↔ sampleInt64Cell.values.rawAdjacentPairsStrictlyIncreasing))
      ∧ (sampleInt64Cell.datatype.isSupportedPrimitive = false →
        sampleInt64Cell.is_sorted_and_unique = .error
          (.unsupportedDatatype sampleInt64Cell.datatype))) :=
  ⟨by decide, is_sorted_and_unique_spec sampleInt64Cell (by decide)⟩

/-! ## C6 — cell shape (`num_instances`, `is_empty`) -/

/-- Claim C6 as stated is false: `num_instances` is declared `-> u32` and
computed by `self.values.len() as _`, so at an input of length `2^32` the
`as` cast truncates and `num_instances()` returns `0`, not `2^32`. -/
theorem num_instances_truncates_counterexample :
    ¬ ((DataCell.from_arrow "rerun.testing.uint8" hugeArray).num_instances
        = hugeArray.len) := by
  intro h
  rw [DataCell.num_instances_def, DataCell.from_arrow_values, hugeArray_len,
    Nat.mod_self] at h
  exact absurd h (by norm_num)

/-- Claim C6 (amended: `num_instances()` equals `N` for inputs of length
`N < 2^32` and `N mod 2^32` in general, because the `usize` length is
returned as `u32`).  For every input of length `N`, without restriction:
`is_empty()` is `true` iff `N == 0`, and `num_instances()` is
`N mod 2^32`; whenever `N < 2^32`, `num_instances()` equals `N`. -/
theorem cell_shape (name : String) (arr : ArrowArray) :
    ((DataCell.from_arrow name arr).is_empty = true ↔ arr.len = 0)
    ∧ (DataCell.from_arrow name arr).num_instances = arr.len % 2 ^ 32
    ∧ (arr.len < 2 ^ 32 → (DataCell.from_arrow name arr).num_instances = arr.len) := by
  refine ⟨?_, rfl, fun hlen => ?_⟩
  · simp only [DataCell.is_empty, DataCell.from_arrow, beq_iff_eq]
  · simp only [DataCell.num_instances, DataCell.from_arrow]
    exact Nat.mod_eq_of_lt hlen

/-- Witness for C6 at a 3-element `Int64` array, with the inner
`N < 2^32` hypothesis discharged. -/
theorem cell_shape_witness :
    (((DataCell.from_arrow "rerun.testing.int64" sampleInt64Array).is_empty = true
        ↔ sampleInt64Array.len = 0)
      ∧ (DataCell.from_arrow "rerun.testing.int64" sampleInt64Array).num_instances
          = sampleInt64Array.len % 2 ^ 32
      ∧ (sampleInt64Array.len < 2 ^ 32 →
          (DataCell.from_arrow "rerun.testing.int64" sampleInt64Array).num_instances
            = sampleInt64Array.len))
    ∧ (DataCell.from_arrow "rerun.testing.int64" sampleInt64Array).num_instances
        = sampleInt64Array.len :=
  ⟨cell_shape "rerun.testing.int64" sampleInt64Array,
    (cell_shape "rerun.testing.int64" sampleInt64Array).2.2 (by decide)⟩

/-! ## C7 — density -/

/-- Claim C7: `is_dense()` is `true` iff the backing array has zero null
entries; a sparse build with at least one absent input element yields
`is_dense() == false`; a sparse build with no absent elements, or a dense
build, yields `is_dense() == true`. -/
theorem is_dense_spec :
    (∀ c : DataCell, c.is_dense = true ↔ c.values.nullCount = 0)
    ∧ (∀ values : List (Option Int),
        ((DataCell.from_native_sparse int64Component values).is_dense = false
          ↔ values.any (fun v => v.isNone) = true))
    ∧ (∀ values : List Int, (DataCell.from_native int64Component values).is_dense = true) := by
  refine ⟨fun c => ?_, fun values => ?_, fun values => ?_⟩
  · unfold DataCell.is_dense ArrowArray.nullCount
    cases c.values.validity <;> simp
  · cases hany : values.any (fun v => v.isNone) with
    | false =>
      have hmem : (none : Option Int) ∉ values := by
        intro hmem
        have htrue : values.any (fun v => v.isNone) = true :=
          List.any_eq_true.mpr ⟨none, hmem, rfl⟩
        rw [hany] at htrue
        exact Bool.false_ne_true htrue
      simp [DataCell.from_native_sparse, DataCell.from_arrow, int64Component,
        DataCell.is_dense, ArrowArray.validity, hany, hmem]
    | true =>
      obtain ⟨v, hv, hvnone⟩ := List.any_eq_true.mp hany
      have hvn : v = none := by cases v <;> simp_all
      subst hvn
      have hfmem : false ∈ values.map (fun v => v.isSome) :=
        List.mem_map.mpr ⟨none, hv, rfl⟩
      have hcount : (values.map (fun v => v.isSome)).count false ≠ 0 := by
        rw [Ne, List.count_eq_zero]
        exact fun hnot => hnot hfmem
      simp [DataCell.from_native_sparse, DataCell.from_arrow, int64Component,
        DataCell.is_dense, ArrowArray.validity, hany, hv, hcount]
  · simp [DataCell.from_native, DataCell.from_arrow, int64Component,
      DataCell.is_dense, ArrowArray.validity]

/-! ## C8 — `as_arrow_monolist` -/

/-- Claim C8 as stated is false: at a cell of `2^31` instances,
`Offsets::<i32>::try_from_lengths(once(num_instances() as usize))`
overflows `i32` and the source `.unwrap()`s the error — `as_arrow_monolist`
panics (modelled as `none`) instead of returning a one-element list array
containing the cell's values. -/
theorem as_arrow_monolist_counterexample :
    ¬ ∃ la, overflowCell.as_arrow_monolist = some la
        ∧ la.outerLen = 1 ∧ la.get 0 = overflowCell.values := by
  rintro ⟨la, hla, -, -⟩
  rw [DataCell.as_arrow_monolist_def, overflowCell_num_instances,
    if_neg (by norm_num)] at hla
  exact Option.noConfusion hla

/-- Claim C8 (amended: for cells of fewer than `2^31` instances, the
largest count whose offsets fit an `i32`).  The mono-list is returned (no
panic) and has exactly one outer element, and that element is exactly the
cell's backing array — all `N` inner values, in order, with their original
validity bitmap; the outer validity is `None`.  For
`2^31 ≤ num_instances()` the offsets construction overflows and the
`.unwrap()` panics.  (`validityWf` is the `arrow2` invariant that a
validity bitmap has one bit per element.) -/
theorem as_arrow_monolist_spec (c : DataCell) (hlen : c.values.len < 2 ^ 31)
    (hwf : c.values.validityWf = true) :
    ∃ la, c.as_arrow_monolist = some la
      ∧ la.outerLen = 1 ∧ la.get 0 = c.values ∧ la.validity = none := by
  have hmod : c.num_instances = c.values.len :=
    Nat.mod_eq_of_lt (lt_trans hlen (by norm_num))
  have hcond : c.num_instances < 2 ^ 31 := by rw [hmod]; exact hlen
  refine ⟨⟨[0, c.num_instances], c.values, none⟩, ?_, rfl, ?_, rfl⟩
  · rw [DataCell.as_arrow_monolist_def, if_pos hcond]
  · simp only [ListArrayI32.get, List.getD_cons_zero, List.getD_cons_succ,
      Nat.sub_zero, hmod]
    exact c.values.slice_zero_len hwf

/-- Witness for C8 at the 3-element `Int64` cell. -/
theorem as_arrow_monolist_spec_witness :
    sampleInt64Cell.values.len < 2 ^ 31
    ∧ sampleInt64Cell.values.validityWf = true
    ∧ ∃ la, sampleInt64Cell.as_arrow_monolist = some la
        ∧ la.outerLen = 1 ∧ la.get 0 = sampleInt64Cell.values ∧ la.validity = none :=
  ⟨by decide, by decide, as_arrow_monolist_spec sampleInt64Cell (by decide) (by decide)⟩

/-! ## C3 — one pull of the streaming decoder -/

/-- Claim C3: Each pull reads exactly 8 bytes, interprets them as a
little-endian unsigned length, reads exactly that many decompressed
bytes, and deserializes them into exactly one message; a failed payload
read surfaces the specific error (wrapped as a `Zstd` error) as the value
of that pull, and a failed deserialization surfaces the specific
`MsgPack` error as the value of that pull — neither is swallowed or
retried. -/
theorem decoder_next_framing {σ Msg : Type} (R : Reader σ)
    (deser : List Nat → Except MsgPackError Msg) (s : σ) :
    ∀ lenBytes s1, R.readExact s 8 = .ok (lenBytes, s1) →
      ((∀ e, R.readExact s1 (leU64 lenBytes) = .error e →
          decoderNext R deser s = some (.error (.zstd e), s1))
        ∧ (∀ payload s2, R.readExact s1 (leU64 lenBytes) = .ok (payload, s2) →
            (∀ m, deser payload = .ok m →
              decoderNext R deser s = some (.ok m, s2))
            ∧ (∀ e, deser payload = .error e →
              decoderNext R deser s = some (.error (.msgPack e), s2)))) := by
  intro lenBytes s1 h8
  refine ⟨fun e he => ?_, fun payload s2 hp => ⟨fun m hm => ?_, fun e he => ?_⟩⟩ <;>
    simp [decoderNext, h8, *]

/-- Witness for C3: the 9-byte decompressed stream `len=1` ++ `[1]`
decodes to the single Boolean message `true`. -/
theorem decoder_next_framing_witness :
    listReader.readExact [1, 0, 0, 0, 0, 0, 0, 0, 1] 8
      = .ok ([1, 0, 0, 0, 0, 0, 0, 0], [1])
    ∧ listReader.readExact [1] (leU64 [1, 0, 0, 0, 0, 0, 0, 0]) = .ok ([1], [])
    ∧ boolDeser [1] = .ok true
    ∧ decoderNext listReader boolDeser [1, 0, 0, 0, 0, 0, 0, 0, 1] = some (.ok true, []) :=
  ⟨rfl, rfl, rfl,
    ((decoder_next_framing listReader boolDeser [1, 0, 0, 0, 0, 0, 0, 0, 1]
        [1, 0, 0, 0, 0, 0, 0, 0] [1] rfl).2 [1] [] rfl).1 true rfl⟩

/-! ## C10 — errors while reading the length prefix end iteration silently -/

/-- Claim C10: While reading the 8-byte frame-length prefix, any error from
the decompressing reader — not only a short read at end of stream — ends
the decoder's iteration with the terminal end-of-stream signal (`none`)
and is never surfaced as an error value (`.ok()?` in the source). -/
theorem length_read_error_silent {σ Msg : Type} (R : Reader σ)
    (deser : List Nat → Except MsgPackError Msg) (s : σ) (e : IoError)
    (h : R.readExact s 8 = .error e) :
    decoderNext R deser s = none := by
  simp [decoderNext, h]

/-- Witness for C10 at a reader failing with a non-EOF error. -/
theorem length_read_error_silent_witness :
    failingReader.readExact () 8 = .error (.other 5)
    ∧ decoderNext failingReader boolDeser () = none :=
  ⟨rfl, length_read_error_silent failingReader boolDeser () (.other 5) rfl⟩

/-! ## C4 — bad magic is rejected before streaming -/

/-- Claim C4: For every input byte stream whose first 4 bytes are not
`"RRF0"`, constructing a decoder fails with the format-mismatch
(`NotAnRrd`) error, and a full decode of the stream yields that error and
zero messages — streaming is never entered. -/
theorem bad_magic_rejected {Msg : Type} (compat : CrateVersion → CrateVersion → Bool)
    (localVersion : CrateVersion) (zstdNew : List Nat → Except IoError (List Nat))
    (deser : List Nat → Except MsgPackError Msg) (input : List Nat)
    (h4 : 4 ≤ input.length) (hm : input.take 4 ≠ rrf0Magic) :
    Decoder.new compat localVersion zstdNew input = .error .notAnRrd
    ∧ decodeAll compat localVersion zstdNew deser input = .error .notAnRrd := by
  have hnew : Decoder.new compat localVersion zstdNew input = .error .notAnRrd := by
    simp [Decoder.new, h4, hm]
  exact ⟨hnew, by simp [decodeAll, hnew]⟩

/-- Witness for C4 at the 4-byte stream `[0, 0, 0, 0]`. -/
theorem bad_magic_rejected_witness :
    4 ≤ ([0, 0, 0, 0] : List Nat).length
    ∧ ([0, 0, 0, 0] : List Nat).take 4 ≠ rrf0Magic
    ∧ (Decoder.new sampleCompat sampleLocalVersion Except.ok [0, 0, 0, 0]
        = .error .notAnRrd
      ∧ decodeAll sampleCompat sampleLocalVersion Except.ok boolDeser [0, 0, 0, 0]
        = .error .notAnRrd) :=
  ⟨by decide, by decide,
    bad_magic_rejected sampleCompat sampleLocalVersion Except.ok boolDeser [0, 0, 0, 0]
      (by decide) (by decide)⟩

/-! ## C5 — the version check warns but never fails -/

/-- The `Decoder::new` on a stream with a valid magic and a 4-byte version
field: the version check runs (producing its warning), and the outcome is
exactly determined by the decompressor initialization. -/
theorem Decoder.new_valid_header (compat : CrateVersion → CrateVersion → Bool)
    (localVersion : CrateVersion) (zstdNew : List Nat → Except IoError (List Nat))
    (v rest : List Nat) (hv : v.length = 4) :
    Decoder.new compat localVersion zstdNew (rrf0Magic ++ v ++ rest)
      = match zstdNew rest with
        | .ok body => .ok (warnOnVersionMismatch compat localVersion v, body)
        | .error e => .error (.zstd e) := by
  have htake : (rrf0Magic ++ (v ++ rest)).take 4 = rrf0Magic := by
    rw [show (4 : Nat) = rrf0Magic.length from rfl, List.take_left]
  have hdrop : (rrf0Magic ++ (v ++ rest)).drop 4 = v ++ rest := by
    rw [show (4 : Nat) = rrf0Magic.length from rfl, List.drop_left]
  have htake2 : (v ++ rest).take 4 = v := List.take_left' hv
  have hdrop2 : (v ++ rest).drop 4 = rest := List.drop_left' hv
  have hlen1 : 4 ≤ (rrf0Magic ++ (v ++ rest)).length := by
    simp [rrf0Magic]
  have hlen2 : 4 ≤ (v ++ rest).length := by
    simp [hv]
  simp only [List.append_assoc, Decoder.new, hlen1, htake, hdrop, hlen2, htake2, hdrop2,
    if_pos, ne_eq, not_true_eq_false, if_false, reduceIte]

/-- Claim C5: The version compatibility check never produces an error value
and never prevents decoding: for every 4-byte version field, decoder
construction proceeds past the check (its outcome is exactly determined
by the decompressor, not by the version); the all-zero version bytes are
substituted with the documented legacy default version `0.2.0` rather
than parsed as the literal zero version; and incompatibility only emits a
warning naming both versions (and no warning is emitted when the versions
are compatible). -/
theorem version_check_never_fails (compat : CrateVersion → CrateVersion → Bool)
    (localVersion : CrateVersion) (zstdNew : List Nat → Except IoError (List Nat))
    (v rest : List Nat) (hv : v.length = 4) :
    (Decoder.new compat localVersion zstdNew (rrf0Magic ++ v ++ rest)
      = match zstdNew rest with
        | .ok body => .ok (warnOnVersionMismatch compat localVersion v, body)
        | .error e => .error (.zstd e))
    ∧ effectiveEncodedVersion [0, 0, 0, 0] = ⟨0, 2, 0⟩
    ∧ CrateVersion.fromBytes [0, 0, 0, 0] = ⟨0, 0, 0⟩
    ∧ (∀ w, warnOnVersionMismatch compat localVersion v = some w →
        w.encoded = effectiveEncodedVersion v ∧ w.localVersion = localVersion
          ∧ compat w.encoded localVersion = false)
    ∧ (compat (effectiveEncodedVersion v) localVersion = true →
        warnOnVersionMismatch compat localVersion v = none) := by
  refine ⟨Decoder.new_valid_header compat localVersion zstdNew v rest hv, rfl, rfl, ?_, ?_⟩
  · intro w hw
    cases hc : compat (effectiveEncodedVersion v) localVersion with
    | true => simp [warnOnVersionMismatch, hc] at hw
    | false =>
      simp only [warnOnVersionMismatch, hc, Bool.false_eq_true, if_false,
        Option.some.injEq] at hw
      subst hw
      exact ⟨rfl, rfl, hc⟩
  · intro hc
    simp [warnOnVersionMismatch, hc]

/-- Witness for C5 at the all-zero version field with an identity
decompressor. -/
theorem version_check_never_fails_witness :
    ([0, 0, 0, 0] : List Nat).length = 4
    ∧ ((Decoder.new sampleCompat sampleLocalVersion Except.ok
          (rrf0Magic ++ [0, 0, 0, 0] ++ [])
        = .ok (warnOnVersionMismatch sampleCompat sampleLocalVersion [0, 0, 0, 0], []))
      ∧ effectiveEncodedVersion [0, 0, 0, 0] = ⟨0, 2, 0⟩
      ∧ CrateVersion.fromBytes [0, 0, 0, 0] = ⟨0, 0, 0⟩
      ∧ (∀ w, warnOnVersionMismatch sampleCompat sampleLocalVersion [0, 0, 0, 0] = some w →
          w.encoded = effectiveEncodedVersion [0, 0, 0, 0]
            ∧ w.localVersion = sampleLocalVersion
            ∧ sampleCompat w.encoded sampleLocalVersion = false)
      ∧ (sampleCompat (effectiveEncodedVersion [0, 0, 0, 0]) sampleLocalVersion = true →
          warnOnVersionMismatch sampleCompat sampleLocalVersion [0, 0, 0, 0] = none)) :=
  ⟨rfl, version_check_never_fails sampleCompat sampleLocalVersion Except.ok
    [0, 0, 0, 0] [] rfl⟩

/-! ## C1 — the round trip -/

/-- One pull at a frame boundary of the decompressed body: the
length-prefixed payload is read back whole and handed to the
deserializer. -/
theorem decoderNext_frame {Msg : Type} (deser : List Nat → Except MsgPackError Msg)
    (payload tail : List Nat) (hlen : payload.length < 2 ^ 64) :
    decoderNext listReader deser (leBytes 8 payload.length ++ (payload ++ tail))
      = match deser payload with
        | .ok m => some (.ok m, tail)
        | .error e => some (.error (.msgPack e), tail) := by
  have h8len : (leBytes 8 payload.length).length = 8 := leBytes_length 8 payload.length
  have hcond8 : 8 ≤ (leBytes 8 payload.length ++ (payload ++ tail)).length := by
    simp [h8len]
  have hread8 : listReadExact (leBytes 8 payload.length ++ (payload ++ tail)) 8
      = .ok (leBytes 8 payload.length, payload ++ tail) := by
    unfold listReadExact
    rw [if_pos hcond8, List.take_left' h8len, List.drop_left' h8len]
  have hcond2 : payload.length ≤ (payload ++ tail).length := by simp
  have hread2 : listReadExact (payload ++ tail) payload.length = .ok (payload, tail) := by
    unfold listReadExact
    rw [if_pos hcond2, List.take_left' rfl, List.drop_left' rfl]
  simp only [decoderNext, listReader, hread8, leU64_leBytes_of_lt hlen, hread2]

/-- Unfolding `drainDecoder` when the pull signals exhaustion. -/
theorem drainDecoder_none {Msg : Type} (deser : List Nat → Except MsgPackError Msg)
    (s : List Nat) (h : decoderNext listReader deser s = none) :
    drainDecoder deser s = .ok [] := by
  rw [drainDecoder]
  split
  · rfl
  · rename_i heq
    rw [h] at heq
    cases heq
  · rename_i heq
    rw [h] at heq
    cases heq

/-- Unfolding `drainDecoder` when the pull yields a message. -/
theorem drainDecoder_cons {Msg : Type} (deser : List Nat → Except MsgPackError Msg)
    (s s' : List Nat) (m : Msg)
    (h : decoderNext listReader deser s = some (.ok m, s')) :
    drainDecoder deser s
      = match drainDecoder deser s' with
        | .ok rest => .ok (m :: rest)
        | .error e => .error e := by
  rw [drainDecoder]
  split
  · rename_i heq
    rw [h] at heq
    cases heq
  · rename_i heq
    rw [h] at heq
    cases heq
  · rename_i heq
    rw [h] at heq
    cases heq
    rfl

/-- Draining a decompressed body made of the length-prefixed frames of
`msgs` yields exactly `msgs`. -/
theorem drainDecoder_frames {Msg : Type} (ser : Msg → List Nat)
    (deser : List Nat → Except MsgPackError Msg)
    (hser : ∀ m, deser (ser m) = .ok m)
    (hlen : ∀ m, (ser m).length < 2 ^ 64) (msgs : List Msg) :
    drainDecoder deser (msgs.map (fun m => leBytes 8 (ser m).length ++ ser m)).flatten
      = .ok msgs := by
  induction msgs with
  | nil =>
    have hnone : decoderNext listReader deser ([] : List Nat) = none := by
      simp [decoderNext, listReader, listReadExact]
    simp only [List.map_nil, List.flatten_nil]
    exact drainDecoder_none deser [] hnone
  | cons m rest ih =>
    have hnext : decoderNext listReader deser
        ((leBytes 8 (ser m).length ++ ser m)
          ++ (rest.map (fun m => leBytes 8 (ser m).length ++ ser m)).flatten)
        = some (.ok m, (rest.map (fun m => leBytes 8 (ser m).length ++ ser m)).flatten) := by
      rw [List.append_assoc, decoderNext_frame deser (ser m) _ (hlen m), hser m]
    rw [List.map_cons, List.flatten_cons, drainDecoder_cons deser _ _ m hnext, ih]

/-- Claim C1: For every finite sequence of valid messages, decoding the
byte stream produced by encoding them yields exactly the original
sequence (structural equality of the message values).  The external
message serializer and compression backend are parametrized by their
contractual round-trip properties. -/
theorem decode_encode_roundtrip {Msg : Type}
    (ser : Msg → List Nat) (deser : List Nat → Except MsgPackError Msg)
    (comp : List Nat → List Nat) (decomp : List Nat → Except IoError (List Nat))
    (compat : CrateVersion → CrateVersion → Bool) (localVersion : CrateVersion)
    (localVersionBytes : List Nat)
    (hser : ∀ m, deser (ser m) = .ok m)
    (hlen : ∀ m, (ser m).length < 2 ^ 64)
    (hdecomp : ∀ b, decomp (comp b) = .ok b)
    (hv : localVersionBytes.length = 4) (msgs : List Msg) :
    decodeAll compat localVersion decomp deser
      (encode ser comp localVersionBytes msgs) = .ok msgs := by
  unfold encode decodeAll
  rw [Decoder.new_valid_header compat localVersion decomp localVersionBytes _ hv, hdecomp]
  exact drainDecoder_frames ser deser hser hlen msgs

/-- Witness for C1: two Boolean messages survive the round trip through
an identity compression backend. -/
theorem decode_encode_roundtrip_witness :
    (∀ m, boolDeser (boolSer m) = .ok m)
    ∧ (∀ m, (boolSer m).length < 2 ^ 64)
    ∧ (∀ b : List Nat, (Except.ok (id b) : Except IoError (List Nat)) = .ok b)
    ∧ ([0, 5, 0, 0] : List Nat).length = 4
    ∧ decodeAll sampleCompat sampleLocalVersion Except.ok boolDeser
        (encode boolSer id [0, 5, 0, 0] [true, false]) = .ok [true, false] :=
  ⟨fun m => by cases m <;> rfl, by decide, fun _ => rfl, rfl,
    decode_encode_roundtrip boolSer boolDeser id Except.ok sampleCompat
      sampleLocalVersion [0, 5, 0, 0] (fun m => by cases m <;> rfl) (by decide)
      (fun _ => rfl) rfl [true, false]⟩

end Rerun
